import Mathlib

set_option linter.unusedVariables false
set_option linter.unusedSectionVars false

/-!
A shallow embedding of the numerical core of `syntheticSeismogram.py`:
acoustic impedance (`getImpedance`), reflectivity with optional transmission
loss (`getReflectivity`), time-depth conversion (`getTimeDepth`), the
Ricker/Ormsby/Klauder wavelets, and the seismogram synthesizer
(`syntheticSeismogram`).

Modelling conventions:
* numpy 1-D arrays are `List α` over a linear ordered field (`ℚ` for
  executable witnesses, `ℝ` where the wavelet transcendentals require it).
* numpy exceptions (broadcast shape mismatches, failed `assert`s, reductions
  of empty arrays) are modelled as `Option.none` results.
* IEEE NaN, where the source can actually produce it (the Klauder wavelet's
  0/0 at t = 0), is modelled as `Option ℝ` with `none` standing for NaN.
* The in-place slice assignment `rseries[i+1:] = rseries[i+1:]*(1.-R[i]**2)`
  of the source acts on the array that both `rseries` and `R` name (the
  assignment `rseries = R` aliases, it does not copy), so the value-level
  model applies the loop to the single shared list and returns the same list
  for both results, and the loop factor reads the current (already scaled)
  entry, exactly as the aliased numpy code does.
* A second, memory-level model (`Heap`, further down) tracks array
  allocation and in-place mutation explicitly in order to settle the frame
  property about the caller's arrays.
-/

namespace Seismogram

section Core

variable {α : Type} [LinearOrderedField α]

/-- numpy 1-D broadcasting of a binary elementwise operation: equal lengths
act pointwise, a length-1 operand is broadcast across the other, and any
other combination of lengths is a shape error (`ValueError`), modelled as
`none`. -/
def bcastOp (f : α → α → α) (a b : List α) : Option (List α) :=
  if a.length = b.length then some (List.zipWith f a b)
  else
    match a, b with
    | [x], _ => some (b.map (fun y => f x y))
    | _, [y] => some (a.map (fun x => f x y))
    | _, _ => none

/-- `np.diff`: successive differences `l[1:] - l[:-1]`. -/
def npDiff : List α → List α
  | a :: b :: rest => (b - a) :: npDiff (b :: rest)
  | _ => []

/-- Running partial sums starting from an accumulator. -/
def cumsumFrom (acc : α) : List α → List α
  | [] => []
  | x :: xs => (acc + x) :: cumsumFrom (acc + x) xs

/-- `np.cumsum`. -/
def cumsum (l : List α) : List α :=
  cumsumFrom 0 l

/-- `np.sort`: ascending sort (returns a new array). -/
def npSort (l : List α) : List α :=
  List.insertionSort (· ≤ ·) l

/-- `np.min`: minimum of an array, an error (`none`) on an empty array. -/
def npMin : List α → Option α
  | [] => none
  | x :: xs => some (xs.foldl min x)

/-- `np.max`: maximum of an array, an error (`none`) on an empty array. -/
def npMax : List α → Option α
  | [] => none
  | x :: xs => some (xs.foldl max x)

/-- `np.argmin` helper: runs through the list keeping the first minimal
element seen so far and its index. -/
def argminIdxAux (best : α) (bestIdx cur : Nat) : List α → Nat
  | [] => bestIdx
  | x :: xs =>
    if x < best then argminIdxAux x cur (cur + 1) xs
    else argminIdxAux best bestIdx (cur + 1) xs

/-- `np.argmin`: index of the first minimal element (0 on the empty array,
which numpy would reject; the synthesizer only applies it to nonempty
arrays). -/
def argminIdx : List α → Nat
  | [] => 0
  | x :: xs => argminIdxAux x 0 1 xs

/-- Source lines 130-133: `np.zeros(len(t))`, then for each interface `i`
an in-place write of `rseries[i]` at the grid index nearest `tref[i]`
(ties take the first minimal index, as `argmin` does; a later interface
snapping to the same index overwrites the earlier one). -/
def placeCoeffs (t tref rseries : List α) : List α :=
  (List.range tref.length).foldl
    (fun acc i =>
      acc.set (argminIdx (t.map (fun x => |x - tref.getD i 0|))) (rseries.getD i 0))
    (List.replicate t.length 0)

/-- Boolean-mask selection `a[mask]` (source lines 138-140). -/
def maskFilter {β : Type} (xs : List β) (keep : List Bool) : List β :=
  ((xs.zip keep).filter (fun p => p.2)).map (fun p => p.1)

/-- `np.arange(a, b, s)`: `⌈(b - a)/s⌉` equally spaced points starting at
`a` with step `s` (empty when the count is nonpositive). -/
def arange [FloorRing α] (a b s : α) : List α :=
  (List.range (Int.ceil ((b - a) / s)).toNat).map (fun i => a + (i : α) * s)

/-- `getImpedance` (source lines 18-26): the elementwise product
`rholog * vlog`; the `np.array(..., dtype=float)` conversions copy but do
not change values. -/
def getImpedance (rholog vlog : List α) : Option (List α) :=
  bcastOp (· * ·) rholog vlog

/-- The effect of the slice assignment `A[k:] = A[k:] * c`. -/
def scaleFrom (A : List α) (k : Nat) (c : α) : List α :=
  A.take k ++ (A.drop k).map (· * c)

/-- The transmission-loss loop of `getReflectivity` (source lines 50-51):
`for i in range(n): rseries[i+1:] = rseries[i+1:]*(1.-R[i]**2)`, where
`rseries` and `R` are the same array, so the factor reads the current,
already attenuated entry `A[i]`. -/
def attenLoop (R0 : List α) (n : Nat) : List α :=
  (List.range n).foldl (fun A i => scaleFrom A (i + 1) (1 - (A.getD i 0) ^ 2)) R0

/-- `getReflectivity` (source lines 29-53).  `d` is accepted and ignored,
as in the source.  Because `rseries = R` aliases, both returned sequences
are the same list: attenuated when `usingT` is set, raw otherwise. -/
def getReflectivity (d rho v : List α) (usingT : Bool) : Option (List α × List α) :=
  match getImpedance rho v with
  | none => none
  | some Z =>
    let dZ := List.zipWith (· - ·) Z.tail Z.dropLast
    let sZ := List.zipWith (· + ·) Z.dropLast Z.tail
    let R := List.zipWith (· / ·) dZ sZ
    let nlayer := v.length
    let rseries := if usingT then attenLoop R (nlayer - 1) else R
    some (rseries, rseries)

/-- `getTimeDepth` (source lines 56-68): sort the depths, append `dmax`,
convert layer thicknesses to two-way travel times, prepend the surface and
accumulate.  There is no validation of `dmax` against the depths. -/
def getTimeDepth (d v : List α) (dmax : α) : Option (List α × List α) :=
  let d1 := npSort d
  let d2 := d1 ++ [dmax]
  match bcastOp (· / ·) ((npDiff d2).map (fun x => 2 * x)) v with
  | none => none
  | some tw => some (d2, cumsum (0 :: tw))

/-- Modelled from the spec (section 4.2, claim C3): the effective
reflectivity the specification describes, `effective[i] = R[i] *
∏_{j<i} (1 - R[j]^2)` with every factor taken from the *raw* coefficient
sequence `R`. -/
def specTransmissionEffective (R : List α) : List α :=
  (List.range R.length).map (fun i =>
    R.getD i 0 * (((List.range i).map (fun j => 1 - (R.getD j 0) ^ 2)).prod))

end Core

noncomputable section Wavelets

/-- Source line 147: `pi = np.pi`. -/
def pi : ℝ := Real.pi

/-- The Ricker amplitude at a single time sample: the scalar evaluation of
source lines 155-156, `w = (1 - 2 (pi f t)^2) exp(-(pi f t)^2)`. -/
def rickerSample (f t : ℝ) : ℝ :=
  (1 - 2 * (pi * f * t) ^ 2) * Real.exp (-((pi * f * t) ^ 2))

/-- `getRicker` (source lines 148-157).  The frequency-count assert is
commented out in the source, so no count check is performed: `pi*f*t`
broadcasts `f` against `t` and fails only on incompatible shapes. -/
def getRicker (f t : List ℝ) : Option (List ℝ) :=
  (bcastOp (· * ·) (f.map (fun x => pi * x)) t).map
    (List.map (fun x => (1 - 2 * x ^ 2) * Real.exp (-(x ^ 2))))

/-- `np.sinc`: the normalized sinc, `sin(pi x)/(pi x)`, with value 1 at 0
(numpy defines the singular point away). -/
def npSinc (x : ℝ) : ℝ :=
  if x = 0 then 1 else Real.sin (pi * x) / (pi * x)

/-- The Ormsby amplitude at one time sample for sorted frequencies
`f0 ≤ f1 ≤ f2 ≤ f3` (source lines 170-176).  The source's second term of
each difference omits the factor `t` inside the sinc
(`np.sinc(pif[2])`, `np.sinc(pif[0])`), which is reproduced faithfully.
A zero denominator (equal adjacent corner frequencies), where numpy would
produce inf/NaN, is outside the modelled domain and falls back to Lean's
total division. -/
def ormsbySample (f0 f1 f2 f3 t : ℝ) : ℝ :=
  ((pi * f3 * npSinc (pi * f3 * t)) ^ 2 - (pi * f2 * npSinc (pi * f2)) ^ 2) /
      (pi * f3 - pi * f2) -
    ((pi * f1 * npSinc (pi * f1 * t)) ^ 2 - (pi * f0 * npSinc (pi * f0)) ^ 2) /
      (pi * f1 - pi * f0)

/-- `getOrmsby` (source lines 163-177): asserts exactly four frequencies,
sorts them ascending, and maps the sample expression over the time axis. -/
def getOrmsby (f t : List ℝ) : Option (List ℝ) :=
  if f.length = 4 then
    some (t.map
      (ormsbySample ((npSort f).getD 0 0) ((npSort f).getD 1 0)
        ((npSort f).getD 2 0) ((npSort f).getD 3 0)))
  else none

/-- The real part of the Klauder sweep expression at one time sample, with
Lean's total division:
`Re(sin(pi k t (T-t))/(pi k t) · exp(2 pi i f0 t)) =
 (sin(pi k t (T-t))/(pi k t)) · cos(2 pi f0 t)`.
Used directly by the memory-level model, where only allocation structure
matters; the value-level `klauderSample` refines it with NaN tracking. -/
def klauderTotal (k f0 T t : ℝ) : ℝ :=
  Real.sin (pi * k * t * (T - t)) / (pi * k * t) * Real.cos (2 * pi * f0 * t)

/-- The Klauder amplitude at one time sample with IEEE semantics: when the
denominator `pi*k*t` is zero the numerator `sin(pi*k*t*(T-t))` is zero too,
and numpy's 0/0 yields NaN (`none`); the source takes no limiting value. -/
def klauderSample (k f0 T t : ℝ) : Option ℝ :=
  if pi * k * t = 0 then none else some (klauderTotal k f0 T t)

/-- `getKlauder` (source lines 179-189): asserts exactly two frequencies;
the sweep rate is `k = np.diff(f)/T` and the centre frequency
`f0 = np.sum(f)/2`. -/
def getKlauder (f t : List ℝ) (T : ℝ) : Option (List (Option ℝ)) :=
  if f.length = 2 then
    some (t.map
      (klauderSample ((f.getD 1 0 - f.getD 0 0) / T) ((f.getD 0 0 + f.getD 1 0) / 2) T))
  else none

/-- NaN-propagating addition on wavelet samples. -/
def nAdd (a b : Option ℝ) : Option ℝ := do
  pure ((← a) + (← b))

/-- NaN-propagating multiplication of a possibly-NaN wavelet sample by a
real number (IEEE `nan * x = nan`, including `x = 0`). -/
def nMul (a : Option ℝ) (b : ℝ) : Option ℝ :=
  a.map (· * b)

/-- `np.convolve` in full mode (source line 136): entry `n` is
`Σ_{k=0..n} w[k]·r[n-k]` with out-of-range entries contributing zero and
output length `len(w) + len(r) - 1`; numpy rejects empty operands. -/
def npConvolve (w : List (Option ℝ)) (r : List ℝ) : Option (List (Option ℝ)) :=
  if w.length = 0 ∨ r.length = 0 then none
  else
    some ((List.range (w.length + r.length - 1)).map (fun n =>
      ((List.range (n + 1)).map (fun k =>
        nMul (w.getD k (some 0)) (r.getD (n - k) 0))).foldr nAdd (some 0)))

/-- The three keys of the wavelet dispatch dict on source line 127. -/
inductive WavTyp
  | RICKER
  | ORMSBY
  | KLAUDER

/-- `syntheticSeismogram` (source lines 82-142).  Note two facts of the
source reproduced here deliberately: the `usingT` argument is converted on
line 112 but never used — line 115 calls `getReflectivity(d,rho,v)` with
its default `usingT=True` — and the reflectivity series placed on the grid
is the first component of that call's result.  Ricker/Ormsby samples are
never NaN and are injected into the NaN-aware sample type with `some`. -/
def syntheticSeismogram (d rho v wavf : List ℝ) (wavA : ℝ) (usingT : Bool)
    (wavtyp : WavTyp) (dt dmax : ℝ) :
    Option (List ℝ × List (Option ℝ) × List ℝ × List (Option ℝ) × List ℝ × List ℝ) := do
  let (_, t0) ← getTimeDepth d v dmax
  let (rseries, _R) ← getReflectivity d rho v true
  let tref := t0.tail.dropLast
  let tmin ← npMin t0
  let tmax ← npMax t0
  let t := arange tmin tmax dt
  let fmin ← npMin wavf
  let twav := arange (-(2 / fmin)) (2 / fmin) dt
  let wav0 ← (match wavtyp with
    | WavTyp.RICKER => (getRicker wavf twav).map (List.map some)
    | WavTyp.ORMSBY => (getOrmsby wavf twav).map (List.map some)
    | WavTyp.KLAUDER => getKlauder wavf twav 5)
  let wav := wav0.map (fun a => a.map (fun x => wavA * x))
  let rseriesconv := placeCoeffs t tref rseries
  let seis ← npConvolve wav rseriesconv
  let twavMin ← npMin twav
  let tseis := (List.range seis.length).map (fun i => twavMin + dt * (i : ℝ))
  let tgMax ← npMax t
  let keep := tseis.map (fun x => decide (0 ≤ x) && decide (x ≤ tgMax))
  return (maskFilter tseis keep, maskFilter seis keep, twav, wav, tref, rseries)

end Wavelets

section Memory

variable {α : Type} [LinearOrderedField α]

/-- A reference to a numpy array: an index into the allocation list. -/
abbrev Ref := Nat

/-- The memory-level model of the numpy arrays alive during a call:
every numpy expression that builds a new array allocates, and in-place
slice/index assignment overwrites an existing allocation.  This model
settles the frame property (which arrays a call mutates); the stored
wavelet values reuse the sample functions above, with total division where
the value-level model tracks NaN, since only mutation structure matters
here. -/
structure Heap (α : Type) where
  arrays : List (List α)

/-- The array a reference denotes (junk `[]` for a dangling reference). -/
def Heap.get (h : Heap α) (r : Ref) : List α :=
  h.arrays.getD r []

/-- Number of allocations made so far.  A fresh allocation receives the
current size as its reference. -/
def Heap.size (h : Heap α) : Nat :=
  h.arrays.length

/-- Allocate a fresh array; its reference is the pre-allocation `size`. -/
def Heap.alloc (h : Heap α) (xs : List α) : Heap α :=
  ⟨h.arrays ++ [xs]⟩

/-- Overwrite the array at a reference: in-place mutation, as performed by
`rseries[i+1:] = ...` and `rseriesconv[index] = ...` in the source. -/
def Heap.write (h : Heap α) (r : Ref) (xs : List α) : Heap α :=
  ⟨h.arrays.set r xs⟩

/-- `getImpedance` at the memory level (source lines 18-26): the two
`np.array(..., dtype=float)` conversions copy their arguments and the
product allocates the result; no existing array is written. -/
def getImpedanceH (h : Heap α) (rho v : Ref) : Option (Heap α × Ref) :=
  let h1 := h.alloc (h.get rho)
  let rhoC := h.size
  let h2 := h1.alloc (h1.get v)
  let vC := h1.size
  (bcastOp (· * ·) (h2.get rhoC) (h2.get vC)).bind (fun z =>
    some (h2.alloc z, h2.size))

/-- `getReflectivity` at the memory level (source lines 29-53).  `Z[1:]`,
`Z[:-1]` are views; the arithmetic on them allocates `dZ`, `sZ` and `R`.
`rseries = R` aliases (no allocation), and the transmission-loss loop
writes through that shared reference, so both returned references are the
same freshly allocated array and no caller array is written. -/
def getReflectivityH (h : Heap α) (d rho v : Ref) (usingT : Bool) :
    Option (Heap α × Ref × Ref) :=
  (getImpedanceH h rho v).bind (fun p =>
    let h1 := p.1
    let zr := p.2
    let h2 := h1.alloc (List.zipWith (· - ·) (h1.get zr).tail (h1.get zr).dropLast)
    let dzr := h1.size
    let h3 := h2.alloc (List.zipWith (· + ·) (h2.get zr).dropLast (h2.get zr).tail)
    let szr := h2.size
    let h4 := h3.alloc (List.zipWith (· / ·) (h3.get dzr) (h3.get szr))
    let rr := h3.size
    let nlayer := (h4.get v).length
    let h5 := if usingT then
        (List.range (nlayer - 1)).foldl
          (fun hh i =>
            hh.write rr (scaleFrom (hh.get rr) (i + 1) (1 - ((hh.get rr).getD i 0) ^ 2)))
          h4
      else h4
    some (h5, rr, rr))

/-- `getTimeDepth` at the memory level (source lines 56-68): `np.sort`,
`np.append`, `np.diff`, the division, the prepend of `0.` and `np.cumsum`
all return new arrays; nothing is written in place. -/
def getTimeDepthH (h : Heap α) (d v : Ref) (dmax : α) : Option (Heap α × Ref × Ref) :=
  let h1 := h.alloc (npSort (h.get d))
  let d1 := h.size
  let h2 := h1.alloc (h1.get d1 ++ [dmax])
  let d2 := h1.size
  let h3 := h2.alloc (npDiff (h2.get d2))
  let dfr := h2.size
  (bcastOp (· / ·) ((h3.get dfr).map (fun x => 2 * x)) (h3.get v)).bind (fun tw =>
    let h4 := h3.alloc tw
    let twr := h3.size
    let h5 := h4.alloc (0 :: h4.get twr)
    let twr2 := h4.size
    let h6 := h5.alloc (cumsum (h5.get twr2))
    let twr3 := h5.size
    some (h6, d2, twr3))

end Memory

noncomputable section MemoryWavelets

/-- `getRicker` at the memory level: `pi*f*t` and the wavelet expression
each allocate; `f` and `t` are only read. -/
def getRickerH (h : Heap ℝ) (f t : Ref) : Option (Heap ℝ × Ref) :=
  (bcastOp (· * ·) ((h.get f).map (fun x => pi * x)) (h.get t)).bind (fun pift =>
    let h1 := h.alloc pift
    let pr := h.size
    let h2 := h1.alloc ((h1.get pr).map (fun x => (1 - 2 * x ^ 2) * Real.exp (-(x ^ 2))))
    some (h2, h1.size))

/-- `getOrmsby` at the memory level: the failed assert is `none`;
`np.sort(f)` and the wavelet expression allocate; `f` and `t` are only
read. -/
def getOrmsbyH (h : Heap ℝ) (f t : Ref) : Option (Heap ℝ × Ref) :=
  if (h.get f).length = 4 then
    let h1 := h.alloc (npSort (h.get f))
    let fs := h.size
    let h2 := h1.alloc ((h1.get t).map
      (ormsbySample ((h1.get fs).getD 0 0) ((h1.get fs).getD 1 0)
        ((h1.get fs).getD 2 0) ((h1.get fs).getD 3 0)))
    some (h2, h1.size)
  else none

/-- `getKlauder` at the memory level: the failed assert is `none`; the
wavelet expression allocates (sample values via `klauderTotal`; the NaN at
`t = 0` is tracked by the value-level `klauderSample`, irrelevant to the
mutation structure); `f` and `t` are only read. -/
def getKlauderH (h : Heap ℝ) (f t : Ref) (T : ℝ) : Option (Heap ℝ × Ref) :=
  if (h.get f).length = 2 then
    some (h.alloc ((h.get t).map
      (klauderTotal (((h.get f).getD 1 0 - (h.get f).getD 0 0) / T)
        (((h.get f).getD 0 0 + (h.get f).getD 1 0) / 2) T)), h.size)
  else none

/-- The convolution values at the memory level (plain reals; the
value-level `npConvolve` refines this with NaN tracking). -/
def npConvolveR (w r : List ℝ) : Option (List ℝ) :=
  if w.length = 0 ∨ r.length = 0 then none
  else
    some ((List.range (w.length + r.length - 1)).map (fun n =>
      ((List.range (n + 1)).map (fun k => w.getD k 0 * r.getD (n - k) 0)).sum))

/-- `syntheticSeismogram` at the memory level (source lines 82-142).
Line 111 rebinds `v, rho, d` to fresh copies, so everything downstream
operates on or from those copies; the only in-place writes are the
transmission-loss loop (through the alias created inside
`getReflectivityH`) and the placement loop writing into the fresh
`np.zeros` array.  `t[1:-1]` is a view in numpy; it is modelled as an
allocation, which is adequate because nothing writes through it.  The
boolean mask of line 138 is kept at the value level (a `Heap ℝ` stores
only float arrays). -/
def syntheticSeismogramH (h : Heap ℝ) (d rho v wavf : Ref) (wavA : ℝ)
    (usingT : Bool) (wavtyp : WavTyp) (dt dmax : ℝ) :
    Option (Heap ℝ × Ref × Ref × Ref × Ref × Ref × Ref) :=
  let h1 := h.alloc (h.get v)
  let vC := h.size
  let h2 := h1.alloc (h1.get rho)
  let rhoC := h1.size
  let h3 := h2.alloc (h2.get d)
  let dC := h2.size
  (getTimeDepthH h3 dC vC dmax).bind (fun ptd =>
    let h4 := ptd.1
    let tr := ptd.2.2
    (getReflectivityH h4 dC rhoC vC true).bind (fun prf =>
      let h5 := prf.1
      let rsr := prf.2.1
      let h6 := h5.alloc ((h5.get tr).tail.dropLast)
      let trefr := h5.size
      (npMin (h6.get tr)).bind (fun tmin =>
        (npMax (h6.get tr)).bind (fun tmax =>
          let h7 := h6.alloc (arange tmin tmax dt)
          let tgr := h6.size
          (npMin (h7.get wavf)).bind (fun fmin =>
            let h8 := h7.alloc (arange (-(2 / fmin)) (2 / fmin) dt)
            let twavr := h7.size
            ((match wavtyp with
              | WavTyp.RICKER => getRickerH h8 wavf twavr
              | WavTyp.ORMSBY => getOrmsbyH h8 wavf twavr
              | WavTyp.KLAUDER => getKlauderH h8 wavf twavr 5)).bind (fun pw =>
              let h9 := pw.1
              let wavr := pw.2
              let h10 := h9.alloc ((h9.get wavr).map (fun x => wavA * x))
              let wavr2 := h9.size
              let h11 := h10.alloc (List.replicate (h10.get tgr).length 0)
              let rcr := h10.size
              let h12 := (List.range (h11.get trefr).length).foldl
                (fun (hh : Heap ℝ) (i : Nat) =>
                  let hh1 := hh.alloc
                    ((hh.get tgr).map (fun x => |x - (hh.get trefr).getD i 0|))
                  let tmpr := hh.size
                  hh1.write rcr
                    ((hh1.get rcr).set (argminIdx (hh1.get tmpr)) ((hh1.get rsr).getD i 0)))
                h11
              (npConvolveR (h12.get wavr2) (h12.get rcr)).bind (fun seis =>
                let h13 := h12.alloc seis
                let seisr := h12.size
                (npMin (h13.get twavr)).bind (fun twavMin =>
                  let h14 := h13.alloc
                    ((List.range (h13.get seisr).length).map
                      (fun i => twavMin + dt * (i : ℝ)))
                  let tseisr := h13.size
                  (npMax (h14.get tgr)).bind (fun tgMax =>
                    let keep := (h14.get tseisr).map
                      (fun x => decide (0 ≤ x) && decide (x ≤ tgMax))
                    let h15 := h14.alloc (maskFilter (h14.get tseisr) keep)
                    let tseisFr := h14.size
                    let h16 := h15.alloc (maskFilter (h15.get seisr) keep)
                    let seisFr := h15.size
                    some (h16, tseisFr, seisFr, twavr, wavr2, trefr, rsr))))))))))

end MemoryWavelets

/-- Heap extension: `h'` contains the original heap `h` unchanged — every
reference valid before the call still denotes exactly the same array.
This is the frame property of an operation that only allocates fresh
arrays or writes to arrays it allocated itself. -/
def HExt {α : Type} (h h' : Heap α) : Prop :=
  h.size ≤ h'.size ∧ ∀ r, r < h.size → h'.get r = h.get r

end Seismogram

namespace Seismogram

section CoreLemmas

variable {α : Type} [LinearOrderedField α]

lemma length_npDiff (l : List α) : (npDiff l).length = l.length - 1 := by
  induction l with
  | nil => simp [npDiff]
  | cons a tl ih =>
    cases tl with
    | nil => simp [npDiff]
    | cons b rest =>
      simp only [npDiff, List.length_cons] at ih ⊢
      omega

lemma mem_npDiff_nonneg {l : List α} (hl : l.Chain' (· ≤ ·)) :
    ∀ x ∈ npDiff l, 0 ≤ x := by
  induction l with
  | nil => simp [npDiff]
  | cons a tl ih =>
    cases tl with
    | nil => simp [npDiff]
    | cons b rest =>
      rw [List.chain'_cons] at hl
      intro x hx
      simp only [npDiff, List.mem_cons] at hx
      rcases hx with rfl | hx
      · simpa using hl.1
      · exact ih hl.2 x hx

lemma length_cumsumFrom (acc : α) (l : List α) :
    (cumsumFrom acc l).length = l.length := by
  induction l generalizing acc with
  | nil => simp [cumsumFrom]
  | cons x xs ih => simp [cumsumFrom, ih]

lemma chain'_cumsumFrom {l : List α} (hl : ∀ x ∈ l, 0 ≤ x) (acc : α) :
    (cumsumFrom acc l).Chain' (· ≤ ·) := by
  induction l generalizing acc with
  | nil => simp [cumsumFrom]
  | cons x xs ih =>
    rw [cumsumFrom, List.chain'_cons']
    refine ⟨?_, ih (fun z hz => hl z (by simp [hz])) (acc + x)⟩
    intro b hb
    cases xs with
    | nil => simp [cumsumFrom] at hb
    | cons y ys =>
      simp only [cumsumFrom, List.head?_cons, Option.mem_def, Option.some.injEq] at hb
      have hy : 0 ≤ y := hl y (by simp)
      linarith [hb.symm.le]

lemma npSort_sorted (l : List α) : (npSort l).Sorted (· ≤ ·) :=
  List.sorted_insertionSort _ l

lemma npSort_perm (l : List α) : List.Perm (npSort l) l :=
  List.perm_insertionSort _ l

lemma npSort_length (l : List α) : (npSort l).length = l.length :=
  (npSort_perm l).length_eq

lemma zipWith_div_nonneg {l v : List α} (hl : ∀ x ∈ l, 0 ≤ x)
    (hv : ∀ x ∈ v, 0 < x) : ∀ x ∈ List.zipWith (· / ·) l v, 0 ≤ x := by
  induction l generalizing v with
  | nil => simp
  | cons a tl ih =>
    cases v with
    | nil => simp
    | cons b vs =>
      intro x hx
      simp only [List.zipWith_cons_cons, List.mem_cons] at hx
      rcases hx with rfl | hx
      · exact div_nonneg (hl a (by simp)) (le_of_lt (hv b (by simp)))
      · exact ih (fun z hz => hl z (by simp [hz])) (fun z hz => hv z (by simp [hz])) x hx

lemma chain'_append_sorted {d : List α} {dmax : α} (hd : ∀ x ∈ d, x < dmax) :
    (npSort d ++ [dmax]).Chain' (· ≤ ·) := by
  rw [List.chain'_append]
  refine ⟨(npSort_sorted d).chain', List.chain'_singleton _, ?_⟩
  intro x hx y hy
  simp only [List.head?_cons, Option.mem_def, Option.some.injEq] at hy
  subst hy
  have hxd : x ∈ npSort d := by
    rcases List.mem_getLast?_eq_getLast hx with ⟨hne, rfl⟩
    exact List.getLast_mem hne
  exact le_of_lt (hd _ ((npSort_perm d).subset hxd))

/-- For parallel inputs of equal length, `getTimeDepth` takes the
equal-length broadcast branch and returns the sorted-appended depth axis
and the accumulated two-way times. -/
lemma getTimeDepth_eq_some {d v : List α} (hlen : d.length = v.length) (dmax : α) :
    getTimeDepth d v dmax =
      some (npSort d ++ [dmax],
        cumsum (0 :: List.zipWith (· / ·)
          ((npDiff (npSort d ++ [dmax])).map (fun x => 2 * x)) v)) := by
  have hl : ((npDiff (npSort d ++ [dmax])).map (fun x => 2 * x)).length = v.length := by
    simp only [List.length_map, length_npDiff, List.length_append,
      List.length_singleton, npSort_length]
    omega
  have hbc : bcastOp (· / ·) ((npDiff (npSort d ++ [dmax])).map (fun x => 2 * x)) v =
      some (List.zipWith (· / ·) ((npDiff (npSort d ++ [dmax])).map (fun x => 2 * x)) v) := by
    unfold bcastOp
    rw [if_pos hl]
  simp only [getTimeDepth, hbc]

end CoreLemmas

/-- Claim C2: the source's docstring defines `R` as the raw impedance
contrasts, but since `rseries = R` aliases, the in-place transmission-loss
loop mutates the returned `R` too: with `usingT = true` the second output
equals the attenuated first output `[1/2, -3/8]`, not the raw coefficients
`[1/2, -1/2]` that the same model yields with `usingT = false`. -/
theorem getReflectivity_second_output_attenuated :
    getReflectivity ([0, 1, 2] : List ℚ) [1, 3, 1] [1, 1, 1] true =
        some ([1/2, -3/8], [1/2, -3/8]) ∧
    getReflectivity ([0, 1, 2] : List ℚ) [1, 3, 1] [1, 1, 1] false =
        some ([1/2, -1/2], [1/2, -1/2]) ∧
    (([1/2, -3/8] : List ℚ) ≠ [1/2, -1/2]) := by
  refine ⟨?_, ?_, by norm_num⟩ <;>
    norm_num [getReflectivity, getImpedance, bcastOp, attenLoop, scaleFrom,
      List.range_succ]

/-- Claim C3: in the 4-layer model with raw coefficients
`[1/2, -1/2, 1/2]`, the code's in-place loop attenuates the third
coefficient with the already-attenuated second coefficient, producing
`165/512`, whereas the docstring/spec formula `R_i · ∏_{j<i} (1 - R_j²)`
over raw coefficients gives `9/32 = 144/512`. -/
theorem getReflectivity_attenuation_uses_mutated_coefficients :
    getReflectivity ([0, 1, 2, 3] : List ℚ) [1, 3, 1, 3] [1, 1, 1, 1] true =
        some ([1/2, -3/8, 165/512], [1/2, -3/8, 165/512]) ∧
    getReflectivity ([0, 1, 2, 3] : List ℚ) [1, 3, 1, 3] [1, 1, 1, 1] false =
        some ([1/2, -1/2, 1/2], [1/2, -1/2, 1/2]) ∧
    specTransmissionEffective ([1/2, -1/2, 1/2] : List ℚ) = [1/2, -3/8, 9/32] ∧
    ((165/512 : ℚ) ≠ 9/32) := by
  refine ⟨?_, ?_, ?_, by norm_num⟩ <;>
    norm_num [getReflectivity, getImpedance, bcastOp, attenLoop, scaleFrom,
      specTransmissionEffective, List.range_succ]

/-- Claim C5 counterexample: with `dmax = 50 ≤ max(depth) = 100` the code
returns a result — the sentinel interval gets negative thickness and the
final time entry decreases — instead of failing with any range error. -/
theorem getTimeDepth_no_range_guard_cex :
    getTimeDepth ([0, 50, 100] : List ℚ) [500, 1000, 1500] 50 =
      some ([0, 50, 100, 50], [0, 1/5, 3/10, 7/30]) := by
  norm_num [getTimeDepth, npSort, npDiff, bcastOp, cumsum, cumsumFrom,
    List.insertionSort, List.orderedInsert]

/-- Claim C5 (amended): `getTimeDepth` performs no validation of `dmax`
against the depths; for parallel inputs it returns sequences of length
N+1 for every `dmax`, including `dmax ≤ max(depth)`. -/
theorem getTimeDepth_returns_without_guard (d v : List ℚ) (dmax : ℚ)
    (hlen : d.length = v.length) :
    ∃ dd tt, getTimeDepth d v dmax = some (dd, tt) ∧
      dd.length = d.length + 1 ∧ tt.length = d.length + 1 := by
  refine ⟨_, _, getTimeDepth_eq_some hlen dmax, ?_, ?_⟩
  · simp [npSort_length]
  · simp only [cumsum, length_cumsumFrom, List.length_cons, List.length_zipWith,
      List.length_map, length_npDiff, List.length_append, List.length_singleton,
      npSort_length]
    omega

/-- Witness for `getTimeDepth_returns_without_guard` at a concrete model
violating the claimed guard. -/
theorem getTimeDepth_returns_without_guard_witness :
    ∃ dd tt, getTimeDepth ([0, 50, 100] : List ℚ) [500, 1000, 1500] 50 = some (dd, tt) ∧
      dd.length = 4 ∧ tt.length = 4 := by
  simpa using getTimeDepth_returns_without_guard [0, 50, 100] [500, 1000, 1500] 50 rfl

/-- Claim C7 counterexample: `[2,3]` and `[5]` have different lengths, yet
numpy broadcasting makes the product succeed instead of failing. -/
theorem getImpedance_broadcasts_cex :
    getImpedance ([2, 3] : List ℚ) [5] = some [10, 15] ∧
    getImpedance ([2, 3] : List ℚ) [5] ≠ none := by
  have h : getImpedance ([2, 3] : List ℚ) [5] = some [10, 15] := by
    norm_num [getImpedance, bcastOp]
  exact ⟨h, by rw [h]; simp⟩

/-- Claim C7 (amended): equal-length inputs give the elementwise product
and no error; inputs of different lengths fail — unless one of them has
length 1, in which case numpy broadcasting succeeds (see the
counterexample). -/
theorem getImpedance_length_behaviour (rho v : List ℚ) :
    (rho.length = v.length → getImpedance rho v = some (List.zipWith (· * ·) rho v)) ∧
    (rho.length ≠ v.length → rho.length ≠ 1 → v.length ≠ 1 →
      getImpedance rho v = none) := by
  constructor
  · intro h
    simp [getImpedance, bcastOp, h]
  · intro h h1 h2
    unfold getImpedance bcastOp
    rw [if_neg h]
    rcases rho with _ | ⟨a, _ | ⟨b, tl⟩⟩ <;> rcases v with _ | ⟨c, _ | ⟨e, tl2⟩⟩ <;>
      simp_all

/-- Witness for `getImpedance_length_behaviour`: both branches exercised at
concrete inputs. -/
theorem getImpedance_length_behaviour_witness :
    getImpedance ([2, 3] : List ℚ) [4, 5] = some [8, 15] ∧
    getImpedance ([1, 2] : List ℚ) [3, 4, 5] = none := by
  constructor
  · rw [(getImpedance_length_behaviour [2, 3] [4, 5]).1 rfl]
    norm_num
  · exact (getImpedance_length_behaviour [1, 2] [3, 4, 5]).2 (by simp) (by simp) (by simp)

/-- Claim C8: for parallel depth/velocity arrays with strictly positive
velocities and `dmax` beyond every depth, the returned time sequence has
length N+1, starts at 0, and is non-decreasing. -/
theorem getTimeDepth_time_axis_monotone (d v : List ℚ) (dmax : ℚ)
    (hlen : d.length = v.length) (hv : ∀ x ∈ v, 0 < x) (hd : ∀ x ∈ d, x < dmax) :
    ∃ dd tt, getTimeDepth d v dmax = some (dd, tt) ∧
      tt.length = d.length + 1 ∧ tt.head? = some 0 ∧ tt.Chain' (· ≤ ·) := by
  refine ⟨_, _, getTimeDepth_eq_some hlen dmax, ?_, ?_, ?_⟩
  · simp only [cumsum, length_cumsumFrom, List.length_cons, List.length_zipWith,
      List.length_map, length_npDiff, List.length_append, List.length_singleton,
      npSort_length]
    omega
  · simp [cumsum, cumsumFrom]
  · have hchain : (npSort d ++ [dmax]).Chain' (· ≤ ·) := chain'_append_sorted hd
    have hdiffs : ∀ x ∈ npDiff (npSort d ++ [dmax]), 0 ≤ x := mem_npDiff_nonneg hchain
    have h2 : ∀ x ∈ (npDiff (npSort d ++ [dmax])).map (fun x => 2 * x), 0 ≤ x := by
      intro x hx
      rcases List.mem_map.mp hx with ⟨y, hy, rfl⟩
      have := hdiffs y hy
      linarith
    have h3 := zipWith_div_nonneg h2 hv
    have h4 : ∀ x ∈ (0 : ℚ) :: List.zipWith (· / ·)
        ((npDiff (npSort d ++ [dmax])).map (fun x => 2 * x)) v, 0 ≤ x := by
      intro x hx
      rcases List.mem_cons.mp hx with rfl | hx
      · exact le_refl 0
      · exact h3 x hx
    simpa only [cumsum] using chain'_cumsumFrom h4 0

/-- Witness for `getTimeDepth_time_axis_monotone` at the spec's worked
example. -/
theorem getTimeDepth_time_axis_monotone_witness :
    ∃ dd tt, getTimeDepth ([0, 50, 100] : List ℚ) [500, 1000, 1500] 200 = some (dd, tt) ∧
      tt.length = 4 ∧ tt.head? = some 0 ∧ tt.Chain' (· ≤ ·) := by
  simpa using getTimeDepth_time_axis_monotone [0, 50, 100] [500, 1000, 1500] 200 rfl
    (by norm_num) (by norm_num)

/-- Claim C4 counterexample: on a time axis containing `t = 0` the Klauder
generator's sample there is numpy's 0/0, i.e. NaN (`none`), not a finite
limiting value. -/
theorem getKlauder_nan_at_zero_cex :
    getKlauder [1, 2] [0] 5 = some [none] := by
  simp [getKlauder, klauderSample]

/-- Claim C4 (amended): the Klauder generator takes no limiting value at
the removable singularity: the sample at `t = 0` is NaN, and a sample is
finite exactly at times where the denominator `pi*k*t` is nonzero. -/
theorem klauderSample_no_limit_at_zero (k f0 T t : ℝ) (h : pi * k * t ≠ 0) :
    klauderSample k f0 T 0 = none ∧
      klauderSample k f0 T t = some (klauderTotal k f0 T t) := by
  constructor
  · simp [klauderSample]
  · simp [klauderSample, h]

/-- Witness for `klauderSample_no_limit_at_zero` with the sweep of the
counterexample. -/
theorem klauderSample_no_limit_at_zero_witness :
    klauderSample (1/5) (3/2) 5 0 = none ∧
      klauderSample (1/5) (3/2) 5 1 = some (klauderTotal (1/5) (3/2) 5 1) :=
  klauderSample_no_limit_at_zero (1/5) (3/2) 5 1 (by
    simp only [pi]
    positivity)

/-- Claim C6 counterexample: two frequencies and a two-sample time axis —
the Ricker generator returns a wavelet (the count assert is commented out
in the source) instead of failing. -/
theorem getRicker_accepts_two_frequencies_cex :
    getRicker [1, 2] [0, 0] = some [1, 1] := by
  norm_num [getRicker, bcastOp, Real.exp_zero]

/-- Claim C6 (amended): `getRicker` checks no frequency count; given more
than one frequency it still returns a wavelet whenever `f` broadcasts
against `t` (equal lengths here), and fails only with a broadcast shape
error otherwise. -/
theorem getRicker_no_count_check (f t : List ℝ) (hf : 1 < f.length) :
    (f.length = t.length → ∃ w, getRicker f t = some w) ∧
    (f.length ≠ t.length → t.length ≠ 1 → getRicker f t = none) := by
  constructor
  · intro h
    refine ⟨(List.zipWith (· * ·) (f.map (fun x => pi * x)) t).map
      (fun x => (1 - 2 * x ^ 2) * Real.exp (-(x ^ 2))), ?_⟩
    simp [getRicker, bcastOp, h]
  · intro h h1
    unfold getRicker bcastOp
    simp only [List.length_map]
    rw [if_neg h]
    rcases f with _ | ⟨a, _ | ⟨b, tl⟩⟩ <;> rcases t with _ | ⟨c, _ | ⟨e, tl2⟩⟩ <;>
      simp_all

/-- Witness for `getRicker_no_count_check` at the counterexample's input. -/
theorem getRicker_no_count_check_witness :
    ∃ w, getRicker [1, 2] [0, 0] = some w :=
  (getRicker_no_count_check [1, 2] [0, 0] (by norm_num)).1 rfl

/-- Claim C9: the Ricker amplitude is even in time, `w(t) = w(-t)`, and
`w(0) = 1`. -/
theorem rickerSample_even_and_unit (f t : ℝ) (hf : 0 < f) :
    rickerSample f t = rickerSample f (-t) ∧ rickerSample f 0 = 1 := by
  constructor
  · unfold rickerSample
    rw [show (pi * f * -t) ^ 2 = (pi * f * t) ^ 2 by ring]
  · unfold rickerSample
    norm_num [Real.exp_zero]

/-- Witness for `rickerSample_even_and_unit` at `f = 1`, `t = 2`. -/
theorem rickerSample_even_and_unit_witness :
    rickerSample 1 2 = rickerSample 1 (-2) ∧ rickerSample 1 0 = 1 :=
  rickerSample_even_and_unit 1 2 (by norm_num)

section SynthLemmas

variable {α : Type} [LinearOrderedField α]

lemma length_foldl_set (l : List Nat) (g : Nat → Nat) (w : Nat → α) :
    ∀ acc : List α, (l.foldl (fun acc i => acc.set (g i) (w i)) acc).length = acc.length := by
  induction l with
  | nil => intro acc; rfl
  | cons x xs ih => intro acc; rw [List.foldl_cons, ih, List.length_set]

lemma length_placeCoeffs (t tref rseries : List α) :
    (placeCoeffs t tref rseries).length = t.length := by
  unfold placeCoeffs
  rw [length_foldl_set, List.length_replicate]

lemma placeCoeffs_ne_nil {t tref rseries : List α} (ht : t ≠ []) :
    placeCoeffs t tref rseries ≠ [] := by
  intro h
  have hl := length_placeCoeffs t tref rseries
  rw [h] at hl
  exact ht (List.length_eq_zero.mp hl.symm)

lemma npConvolve_eq_of_ne_nil {w : List (Option ℝ)} {r : List ℝ} (hw : w ≠ [])
    (hr : r ≠ []) :
    npConvolve w r = some ((List.range (w.length + r.length - 1)).map (fun n =>
      ((List.range (n + 1)).map (fun k =>
        nMul (w.getD k (some 0)) (r.getD (n - k) 0))).foldr nAdd (some 0))) := by
  unfold npConvolve
  rw [if_neg]
  simp [List.length_eq_zero, hw, hr]

end SynthLemmas

/-- Claim C1: `syntheticSeismogram` ignores its `usingT` argument — source
line 115 calls `getReflectivity(d,rho,v)` with the default `usingT=True` —
so even when called with `usingT = false` the reflectivity series it
places on the time grid and returns is the transmission-attenuated
`[13/33, 26680/131769]`, while `getReflectivity` with `usingT = false`
yields the raw coefficients `[13/33, 29/121]` the claim requires. -/
theorem synthesize_ignores_usingT_flag :
    (syntheticSeismogram [0, 50, 100] [2000, 2300, 2500] [500, 1000, 1500] [50] 1 false
        WavTyp.RICKER (1/10) 200).map (fun out => out.2.2.2.2.2) =
      some [13/33, 26680/131769] ∧
    (getReflectivity ([0, 50, 100] : List ℝ) [2000, 2300, 2500] [500, 1000, 1500]
        false).map (fun out => out.1) = some [13/33, 29/121] ∧
    (([13/33, 26680/131769] : List ℝ) ≠ [13/33, 29/121]) := by
  have h1 : getTimeDepth ([0, 50, 100] : List ℝ) [500, 1000, 1500] 200 =
      some ([0, 50, 100, 200], [0, 1/5, 3/10, 13/30]) := by
    norm_num [getTimeDepth, npSort, npDiff, bcastOp, cumsum, cumsumFrom,
      List.insertionSort, List.orderedInsert]
  have h2 : getReflectivity ([0, 50, 100] : List ℝ) [2000, 2300, 2500] [500, 1000, 1500]
      true = some ([13/33, 26680/131769], [13/33, 26680/131769]) := by
    norm_num [getReflectivity, getImpedance, bcastOp, attenLoop, scaleFrom,
      List.range_succ]
  have htg : arange (0 : ℝ) (13/30) (1/10) = [0, 1/10, 1/5, 3/10, 2/5] := by
    have hc : (⌈(((13:ℝ)/30) - 0) / (1/10)⌉).toNat = 5 := by
      rw [show (((13:ℝ)/30) - 0) / (1/10) = 13/3 by norm_num,
        show ⌈((13:ℝ)/3)⌉ = 5 by (rw [Int.ceil_eq_iff]; norm_num)]
      rfl
    unfold arange
    rw [hc]
    norm_num [show List.range 5 = [0, 1, 2, 3, 4] from rfl]
  have htwav : arange (-(2/50) : ℝ) (2/50) (1/10) = [-(1/25)] := by
    have hc : (⌈(((2:ℝ)/50) - -(2/50)) / (1/10)⌉).toNat = 1 := by
      rw [show (((2:ℝ)/50) - -(2/50)) / (1/10) = 4/5 by norm_num,
        show ⌈((4:ℝ)/5)⌉ = 1 by (rw [Int.ceil_eq_iff]; norm_num)]
      rfl
    unfold arange
    rw [hc]
    norm_num [show List.range 1 = [0] from rfl]
  have hmin : npMin ([0, 1/5, 3/10, 13/30] : List ℝ) = some 0 := by
    norm_num [npMin, min_def]
  have hmax : npMax ([0, 1/5, 3/10, 13/30] : List ℝ) = some (13/30) := by
    norm_num [npMax, max_def]
  have hfmin : npMin ([50] : List ℝ) = some 50 := by
    norm_num [npMin]
  have htwavmin : npMin ([-(1/25)] : List ℝ) = some (-(1/25)) := by
    norm_num [npMin]
  have htgmax : npMax ([0, 1/10, 1/5, 3/10, 2/5] : List ℝ) = some (2/5) := by
    norm_num [npMax, max_def]
  have hrick : getRicker [50] [-(1/25)] =
      some [(1 - 2 * (pi * 50 * -(1/25)) ^ 2) * Real.exp (-((pi * 50 * -(1/25)) ^ 2))] := by
    simp [getRicker, bcastOp]
  refine ⟨?_, ?_, by norm_num⟩
  · simp only [syntheticSeismogram, h1, h2, Option.bind_eq_bind, Option.some_bind,
      List.tail_cons, List.dropLast, hmin, hmax, hfmin,
      htg, htwav, hrick, htwavmin, htgmax, List.map_cons, List.map_nil,
      Option.map_some']
    rw [npConvolve_eq_of_ne_nil]
    · simp
    · simp
    · exact placeCoeffs_ne_nil (by simp)
  · norm_num [getReflectivity, getImpedance, bcastOp]

section MemoryLemmas

variable {α : Type} [LinearOrderedField α]

lemma size_alloc (h : Heap α) (xs : List α) : (h.alloc xs).size = h.size + 1 := by
  simp [Heap.alloc, Heap.size]

lemma size_le_alloc (h : Heap α) (xs : List α) : h.size ≤ (h.alloc xs).size := by
  rw [size_alloc]
  omega

lemma heap_get_alloc_of_lt {h : Heap α} {r : Ref} (hr : r < h.size) (xs : List α) :
    (h.alloc xs).get r = h.get r := by
  simp only [Heap.get, Heap.alloc]
  exact List.getD_append _ _ _ _ hr

lemma heap_get_write_ne {h : Heap α} {r r' : Ref} (hne : r' ≠ r) (xs : List α) :
    (h.write r' xs).get r = h.get r := by
  simp only [Heap.get, Heap.write, List.getD_eq_getElem?_getD,
    List.getElem?_set_ne hne]

lemma hext_refl (h : Heap α) : HExt h h :=
  ⟨le_refl _, fun _ _ => rfl⟩

lemma hext_trans {h1 h2 h3 : Heap α} (a : HExt h1 h2) (b : HExt h2 h3) : HExt h1 h3 :=
  ⟨le_trans a.1 b.1, fun r hr => (b.2 r (lt_of_lt_of_le hr a.1)).trans (a.2 r hr)⟩

lemma hext_alloc (h : Heap α) (xs : List α) : HExt h (h.alloc xs) :=
  ⟨size_le_alloc h xs, fun _ hr => heap_get_alloc_of_lt hr xs⟩

lemma hext_alloc_of {h hh : Heap α} (e : HExt h hh) (xs : List α) :
    HExt h (hh.alloc xs) :=
  hext_trans e (hext_alloc hh xs)

lemma hext_write_of {h hh : Heap α} (e : HExt h hh) {r : Ref} (hr : h.size ≤ r)
    (xs : List α) : HExt h (hh.write r xs) := by
  refine ⟨?_, ?_⟩
  · have hsz : (hh.write r xs).size = hh.size := by
      simp [Heap.write, Heap.size, List.length_set]
    rw [hsz]
    exact e.1
  · intro r' hr'
    have hne : r ≠ r' := Nat.ne_of_gt (lt_of_lt_of_le hr' hr)
    rw [heap_get_write_ne hne xs]
    exact e.2 r' hr'

lemma hext_foldl {β : Type} {h : Heap α} {f : Heap α → β → Heap α}
    (hf : ∀ hh i, HExt h hh → HExt h (f hh i)) :
    ∀ (l : List β) (hh : Heap α), HExt h hh → HExt h (l.foldl f hh) := by
  intro l
  induction l with
  | nil => intro hh e; exact e
  | cons x xs ih => intro hh e; exact ih _ (hf hh x e)

lemma getImpedanceH_ext {h : Heap α} {rho v : Ref} {out : Heap α × Ref}
    (hout : getImpedanceH h rho v = some out) : HExt h out.1 := by
  simp only [getImpedanceH] at hout
  obtain ⟨z, hz, hsome⟩ := Option.bind_eq_some.mp hout
  obtain rfl : _ = out := (Option.some.injEq _ _).mp hsome
  exact hext_alloc_of (hext_alloc_of (hext_alloc h _) _) _

lemma getReflectivityH_ext {h : Heap α} {d rho v : Ref} {usingT : Bool}
    {out : Heap α × Ref × Ref} (hout : getReflectivityH h d rho v usingT = some out) :
    HExt h out.1 := by
  simp only [getReflectivityH] at hout
  obtain ⟨p, hp, hsome⟩ := Option.bind_eq_some.mp hout
  obtain rfl : _ = out := (Option.some.injEq _ _).mp hsome
  have e1 : HExt h p.1 := getImpedanceH_ext hp
  split
  · refine hext_foldl (fun hh i e => hext_write_of e ?_ _) _ _
      (hext_alloc_of (hext_alloc_of (hext_alloc_of e1 _) _) _)
    exact le_trans e1.1 (le_trans (size_le_alloc _ _) (size_le_alloc _ _))
  · exact hext_alloc_of (hext_alloc_of (hext_alloc_of e1 _) _) _

lemma getTimeDepthH_ext {h : Heap α} {d v : Ref} {dmax : α} {out : Heap α × Ref × Ref}
    (hout : getTimeDepthH h d v dmax = some out) : HExt h out.1 := by
  simp only [getTimeDepthH] at hout
  obtain ⟨tw, htw, hsome⟩ := Option.bind_eq_some.mp hout
  obtain rfl : _ = out := (Option.some.injEq _ _).mp hsome
  exact hext_alloc_of (hext_alloc_of (hext_alloc_of
    (hext_alloc_of (hext_alloc_of (hext_alloc h _) _) _) _) _) _

end MemoryLemmas

lemma getRickerH_ext {h : Heap ℝ} {f t : Ref} {out : Heap ℝ × Ref}
    (hout : getRickerH h f t = some out) : HExt h out.1 := by
  simp only [getRickerH] at hout
  obtain ⟨pift, hp, hsome⟩ := Option.bind_eq_some.mp hout
  obtain rfl : _ = out := (Option.some.injEq _ _).mp hsome
  exact hext_alloc_of (hext_alloc h _) _

lemma getOrmsbyH_ext {h : Heap ℝ} {f t : Ref} {out : Heap ℝ × Ref}
    (hout : getOrmsbyH h f t = some out) : HExt h out.1 := by
  simp only [getOrmsbyH] at hout
  split at hout
  · obtain rfl : _ = out := (Option.some.injEq _ _).mp hout
    exact hext_alloc_of (hext_alloc h _) _
  · exact absurd hout (by simp)

lemma getKlauderH_ext {h : Heap ℝ} {f t : Ref} {T : ℝ} {out : Heap ℝ × Ref}
    (hout : getKlauderH h f t T = some out) : HExt h out.1 := by
  simp only [getKlauderH] at hout
  split at hout
  · obtain rfl : _ = out := (Option.some.injEq _ _).mp hout
    exact hext_alloc h _
  · exact absurd hout (by simp)

lemma syntheticSeismogramH_ext {h : Heap ℝ} {d rho v wavf : Ref} {wavA : ℝ}
    {usingT : Bool} {wavtyp : WavTyp} {dt dmax : ℝ}
    {out : Heap ℝ × Ref × Ref × Ref × Ref × Ref × Ref}
    (hout : syntheticSeismogramH h d rho v wavf wavA usingT wavtyp dt dmax = some out) :
    HExt h out.1 := by
  simp only [syntheticSeismogramH] at hout
  obtain ⟨ptd, hptd, hout⟩ := Option.bind_eq_some.mp hout
  obtain ⟨prf, hprf, hout⟩ := Option.bind_eq_some.mp hout
  obtain ⟨tmin, htmin, hout⟩ := Option.bind_eq_some.mp hout
  obtain ⟨tmax, htmax, hout⟩ := Option.bind_eq_some.mp hout
  obtain ⟨fmin, hfmin, hout⟩ := Option.bind_eq_some.mp hout
  obtain ⟨pw, hpw, hout⟩ := Option.bind_eq_some.mp hout
  obtain ⟨seis, hseis, hout⟩ := Option.bind_eq_some.mp hout
  obtain ⟨twavMin, htwavMin, hout⟩ := Option.bind_eq_some.mp hout
  obtain ⟨tgMax, htgMax, hout⟩ := Option.bind_eq_some.mp hout
  obtain rfl : _ = out := (Option.some.injEq _ _).mp hout
  have e4 : HExt h ptd.1 :=
    hext_trans (hext_alloc_of (hext_alloc_of (hext_alloc h _) _) _)
      (getTimeDepthH_ext hptd)
  have e5 : HExt h prf.1 := hext_trans e4 (getReflectivityH_ext hprf)
  have e9 : HExt h pw.1 := by
    cases wavtyp
    · exact hext_trans (hext_alloc_of (hext_alloc_of (hext_alloc_of e5 _) _) _)
        (getRickerH_ext hpw)
    · exact hext_trans (hext_alloc_of (hext_alloc_of (hext_alloc_of e5 _) _) _)
        (getOrmsbyH_ext hpw)
    · exact hext_trans (hext_alloc_of (hext_alloc_of (hext_alloc_of e5 _) _) _)
        (getKlauderH_ext hpw)
  refine hext_alloc_of (hext_alloc_of (hext_alloc_of (hext_alloc_of
    (hext_foldl (fun hh i e => hext_write_of (hext_alloc_of e _) ?_ _) _ _
      (hext_alloc_of (hext_alloc_of e9 _) _)) _) _) _) _
  exact le_trans e9.1 (size_le_alloc _ _)

/-- Claim C10: none of the pipeline operations modifies the caller's input
arrays.  Each memory-level operation that returns a result returns a heap
extending its input heap (`HExt`): every reference valid before the call —
in particular the depth, density, velocity, frequency and time-axis
arguments — still denotes exactly the array it held before, even though
the reflectivity loop and the placement loop mutate arrays in place (those
arrays are allocated inside the call). -/
theorem pipeline_preserves_caller_arrays :
    (∀ {α : Type} [LinearOrderedField α] (h : Heap α) (rho v : Ref)
        (out : Heap α × Ref),
        getImpedanceH h rho v = some out → HExt h out.1) ∧
    (∀ {α : Type} [LinearOrderedField α] (h : Heap α) (d rho v : Ref) (usingT : Bool)
        (out : Heap α × Ref × Ref),
        getReflectivityH h d rho v usingT = some out → HExt h out.1) ∧
    (∀ {α : Type} [LinearOrderedField α] (h : Heap α) (d v : Ref) (dmax : α)
        (out : Heap α × Ref × Ref),
        getTimeDepthH h d v dmax = some out → HExt h out.1) ∧
    (∀ (h : Heap ℝ) (f t : Ref) (out : Heap ℝ × Ref),
        getRickerH h f t = some out → HExt h out.1) ∧
    (∀ (h : Heap ℝ) (f t : Ref) (out : Heap ℝ × Ref),
        getOrmsbyH h f t = some out → HExt h out.1) ∧
    (∀ (h : Heap ℝ) (f t : Ref) (T : ℝ) (out : Heap ℝ × Ref),
        getKlauderH h f t T = some out → HExt h out.1) ∧
    (∀ (h : Heap ℝ) (d rho v wavf : Ref) (wavA : ℝ) (usingT : Bool) (wavtyp : WavTyp)
        (dt dmax : ℝ) (out : Heap ℝ × Ref × Ref × Ref × Ref × Ref × Ref),
        syntheticSeismogramH h d rho v wavf wavA usingT wavtyp dt dmax = some out →
          HExt h out.1) :=
  ⟨fun _ _ _ _ hout => getImpedanceH_ext hout,
   fun _ _ _ _ _ _ hout => getReflectivityH_ext hout,
   fun _ _ _ _ _ hout => getTimeDepthH_ext hout,
   fun _ _ _ _ hout => getRickerH_ext hout,
   fun _ _ _ _ hout => getOrmsbyH_ext hout,
   fun _ _ _ _ _ hout => getKlauderH_ext hout,
   fun _ _ _ _ _ _ _ _ _ _ _ hout => syntheticSeismogramH_ext hout⟩

/-- Witness for `pipeline_preserves_caller_arrays`: running the
reflectivity computation (the one operation whose in-place loop could
plausibly clobber its inputs) on a concrete 3-array heap leaves the three
caller arrays untouched. -/
theorem pipeline_preserves_caller_arrays_witness :
    ∃ out, getReflectivityH (⟨[[0, 1], [1, 3], [1, 1]]⟩ : Heap ℚ) 0 1 2 true =
        some out ∧
      out.1.get 0 = [0, 1] ∧ out.1.get 1 = [1, 3] ∧ out.1.get 2 = [1, 1] := by
  have hsome : getReflectivityH (⟨[[0, 1], [1, 3], [1, 1]]⟩ : Heap ℚ) 0 1 2 true =
      some (⟨[[0, 1], [1, 3], [1, 1], [1, 3], [1, 1], [1 * 1, 3 * 1],
        [3 * 1 - 1 * 1], [1 * 1 + 3 * 1],
        [(3 * 1 - 1 * 1) / (1 * 1 + 3 * 1)]]⟩, 8, 8) := rfl
  have hext := pipeline_preserves_caller_arrays.2.1 _ 0 1 2 true _ hsome
  refine ⟨_, hsome, ?_, ?_, ?_⟩
  · rw [hext.2 0 (by decide)]
    rfl
  · rw [hext.2 1 (by decide)]
    rfl
  · rw [hext.2 2 (by decide)]
    rfl

end Seismogram
